import Mathlib

/-!
Verification of the ABNF → tree-sitter grammar translator (`src/main.js`).

The development shallowly embeds the translator:

* tree-sitter concrete syntax nodes become the inductive `Node` (kind tag,
  source text, named flag, ordered children), mirroring the fields the
  translator reads (`type`, `text`, `children`, `namedChildren`);
* the recursive string-building function `convert` (and its companion
  `inlineRuleFuncs`) is embedded fuel-indexed; every theorem is stated for an
  arbitrary sufficient fuel, and `none` models a thrown JavaScript exception
  (failed `assert`, property access on `undefined`/`null`, or an invalid
  array length), while `JsStr.undef` models a branch returning `undefined`;
* the diagnostic-feedback step of `generate()` becomes `generateStep`, a pure
  function from a `Session` and the generator's error text to the updated
  `Session` plus the action taken, with the four regular-expression matchers
  embedded as explicit leftmost-match scanners.
-/

set_option maxHeartbeats 1000000

/-- JavaScript whitespace for `String.prototype.trim` / `trimEnd`:
tab, LF, VT, FF, CR, space, NBSP, the Unicode space separators,
LS, PS and the BOM. -/
def isJsWs (c : Char) : Bool :=
  ([9, 10, 11, 12, 13, 32, 0xA0, 0x1680, 0x2000, 0x2001, 0x2002, 0x2003,
    0x2004, 0x2005, 0x2006, 0x2007, 0x2008, 0x2009, 0x200A, 0x2028, 0x2029,
    0x202F, 0x205F, 0x3000, 0xFEFF] : List UInt32).contains c.val

/-- `String.prototype.trim`: drop JS whitespace from both ends. -/
def jsTrimChars (l : List Char) : List Char :=
  (l.dropWhile isJsWs).rdropWhile isJsWs

/-- `s.trim()` on a JavaScript string. -/
def jsTrimStr (s : String) : String :=
  String.mk (jsTrimChars s.data)

/-- `s.trimRight()` (alias of `trimEnd`) on a JavaScript string. -/
def jsTrimEndStr (s : String) : String :=
  String.mk (s.data.rdropWhile isJsWs)

/-- The character substitution of the global replace of `'-'` by `'_'`. -/
def replaceDash (c : Char) : Char :=
  if c = '-' then '_' else c

/-- `normalizeRulename` from `src/main.js` line 6: trim the name, then
globally replace `'-'` by `'_'`. -/
def normalizeRulename (s : String) : String :=
  String.mk ((jsTrimChars s.data).map replaceDash)

/-- `Array.prototype.join(sep)` on an array of strings (JS yields `""` for the
empty array and inserts `sep` between consecutive elements). -/
def joinSep (sep : String) : List String → String
  | [] => ""
  | [x] => x
  | x :: y :: xs => x ++ sep ++ joinSep sep (y :: xs)

/-- `s.padStart(4, '0')`: left-pad with `'0'` up to length 4 (a longer string
is returned unchanged). -/
def pad4 (s : String) : String :=
  String.mk (List.replicate (4 - s.length) '0') ++ s

/-- `s.replace(/\\/g, '\\\\')`: double every backslash (the quoted-string
escape in the `quoted_string` case). -/
def escapeBackslashes (s : String) : String :=
  String.mk ((s.data.map (fun c => if c = '\\' then ['\\', '\\'] else [c])).flatten)

/-- Decimal digit test used by the `parseInt` model. -/
def isDecDigit (c : Char) : Bool :=
  48 ≤ c.val ∧ c.val ≤ 57

/-- Value of a run of decimal digits, most significant first. -/
def decValue (l : List Char) : Nat :=
  l.foldl (fun a c => a * 10 + (c.toNat - 48)) 0

/-- JavaScript `parseInt(s)` restricted to the translator's inputs (runs of
`DIGIT`/`'*'` tokens): leading JS whitespace is skipped, the longest leading
run of decimal digits is converted, and `none` models the `NaN` result when
that run is empty.  (The sign prefixes of full `parseInt` cannot occur here:
the repeat-operator tokens are decimal digits and `'*'` only.) -/
def parseIntJS (s : String) : Option Nat :=
  let ds := (s.data.dropWhile isJsWs).takeWhile isDecDigit
  if ds.isEmpty then none else some (decValue ds)

/-- Value of a run of hexadecimal digits, most significant first (used to state
that left-padding with `'0'` preserves the denoted code point). -/
def hexDigitVal (c : Char) : Nat :=
  if 48 ≤ c.val ∧ c.val ≤ 57 then c.toNat - 48
  else if 65 ≤ c.val ∧ c.val ≤ 70 then c.toNat - 55
  else if 97 ≤ c.val ∧ c.val ≤ 102 then c.toNat - 87
  else 0

/-- Code point denoted by a hex digit run. -/
def hexValue (s : String) : Nat :=
  s.data.foldl (fun a c => a * 16 + hexDigitVal c) 0

/-- A tree-sitter concrete syntax node as the translator reads it: the kind
tag (`node.type`), the source text of the spanned range (`node.text`),
whether the node is a named node (tree-sitter distinguishes named nodes from
anonymous/punctuation tokens), and the ordered list of all children
(`node.children`). -/
inductive Node : Type where
  | mk (ty : String) (text : String) (named : Bool) (children : List Node)

/-- `node.type`. -/
def Node.type : Node → String
  | .mk t _ _ _ => t

/-- `node.text`. -/
def Node.text : Node → String
  | .mk _ s _ _ => s

/-- Whether the node is a named node. -/
def Node.named : Node → Bool
  | .mk _ _ b _ => b

/-- `node.children` (named and anonymous alike). -/
def Node.children : Node → List Node
  | .mk _ _ _ cs => cs

/-- `node.namedChildren`: the named children, in order. -/
def Node.namedChildren (n : Node) : List Node :=
  n.children.filter (·.named)

mutual

/-- `node.descendantsOfType(ty)`: every node of kind `ty` in the subtree
rooted at `n` (the node itself included when it matches), in pre-order. -/
def descendantsOfType (ty : String) : Node → List Node
  | .mk t s b cs =>
    (if t = ty then [Node.mk t s b cs] else []) ++ descendantsOfTypeList ty cs

/-- `descendantsOfType` mapped over a list of sibling subtrees. -/
def descendantsOfTypeList (ty : String) : List Node → List Node
  | [] => []
  | c :: cs => descendantsOfType ty c ++ descendantsOfTypeList ty cs

end

/-- `node.firstNamedChild` paired with that child's `nextSibling` (the next
node in the full child list, named or not): `none` when there is no named
child. -/
def firstNamedAndNext : List Node → Option (Node × Option Node)
  | [] => none
  | c :: rest => if c.named then some (c, rest.head?) else firstNamedAndNext rest

/-- A JavaScript value returned by `convert`: either a string, or the
`undefined` produced by the fall-through `unsupported` branches. -/
inductive JsStr : Type where
  | s (v : String)
  | undef
deriving DecidableEq

/-- Template-literal coercion: interpolating `undefined` prints
`"undefined"`. -/
def templ : JsStr → String
  | .s v => v
  | .undef => "undefined"

/-- `Array.prototype.join` coercion: `undefined` elements become the empty
string. -/
def jsArrElem : JsStr → String
  | .s v => v
  | .undef => ""

/-- `arr.join(sep)` on an array of `convert` results. -/
def joinJsArr (sep : String) (vs : List JsStr) : String :=
  joinSep sep (vs.map jsArrElem)

/-- The parameters of `toTreeSitter` that `convert` closes over. -/
structure Ctx : Type where
  startRule : String
  langName : String
  includeCoreRules : Bool
  inlineRules : List String
  conflicts : List String
  hiddenRules : List String
deriving DecidableEq

/-- The fixed `coreRules` block (RFC 5234 Appendix B) interpolated into the
`source_file` template, or the empty string when core rules are excluded. -/
def coreRulesText (includeCoreRules : Bool) : String :=
  if includeCoreRules then
    ",\n    // Rules defined in RFC 5234, Appendix B.\n    ALPHA: $ => /[A-Za-z]/,\n    BIT: $ => choice(\"0\", \"1\"),\n    DIGIT: $ => /[0-9]/,\n    CR: $ => \"\\r\",\n    CRLF: $ => seq($.CR, $.LF),\n    DQUOTE: $ => \"\\\"\",\n    // RFC 5234 only defines upper-case HEXDIGs, but this grammar is\n    // more lenient.\n    HEXDIG: $ => /[0-9A-Fa-f]/,\n    HTAB: $ => \"\\t\",\n    LF: $ => \"\\n\",\n    SP: $ => \" \",\n    VCHAR: $ => /[\\x21-\\x7E]/,\n    WSP: $ => choice($.SP, $.HTAB)\n"
  else ""

/-- `Array.prototype.findIndex` returning `none` for `-1`. -/
def jsFindIndex (p : Node → Bool) : List Node → Option Nat
  | [] => none
  | c :: cs =>
    if p c then some 0
    else match jsFindIndex p cs with
      | some i => some (i + 1)
      | none => none

/-- The step-three loop of the `hex_val` multiple-of-three branch: each group
must be a marker of kind `'x'` or `'.'` followed by two `HEXDIG` tokens
(the `assert`s), and contributes `\xHH` to the literal. `none` models a
failed `assert`. -/
def hexTriplets : List Node → Option String
  | [] => some ""
  | a :: b :: c :: rest =>
    if (a.type = "x" ∨ a.type = ".") ∧ b.type = "HEXDIG" ∧ c.type = "HEXDIG" then
      (hexTriplets rest).map (fun s => "\\x" ++ b.text ++ c.text ++ s)
    else none
  | _ => none

/-- The trailing loop of the `hex_val` single-value branch: every token after
the `'x'` marker must be a `HEXDIG` (the `assert`); the digit texts are
concatenated. -/
def hexDigitsRun : List Node → Option String
  | [] => some ""
  | c :: rest =>
    if c.type = "HEXDIG" then (hexDigitsRun rest).map (fun s => c.text ++ s)
    else none

/-- The filter step of `inlineRuleFuncs`: keep the `rule` descendants whose
normalized rule name is in the inline set.  Reading `descendantsOfType`
`('rulename')[0].text` throws when a rule has no `rulename` descendant
(`none`). -/
def inlineRuleFilter (inl : List String) : List Node → Option (List Node)
  | [] => some []
  | x :: xs => do
    let rn ← (descendantsOfType "rulename" x).head?
    let rest ← inlineRuleFilter inl xs
    if normalizeRulename rn.text ∈ inl then
      pure (x :: rest)
    else
      pure rest

/-- The map step of `inlineRuleFuncs`: each kept rule becomes
`const <name> = $ => <body>;`, where the body is the converted `elements`
descendant (an array in JavaScript, so interpolation joins it with `","`;
the `elements` case below already returns the joined string). -/
def inlineRuleMap (conv : Node → Option JsStr) : List Node → Option (List String)
  | [] => some []
  | x :: xs => do
    let rn ← (descendantsOfType "rulename" x).head?
    let els ← (descendantsOfType "elements" x).head?
    let body ← conv els
    let rest ← inlineRuleMap conv xs
    pure (("const " ++ normalizeRulename rn.text ++ " = $ => " ++ templ body ++ ";") :: rest)

/-- The template literal returned by the `source_file` case of `convert`:
the inline-rule helper functions, then the `module.exports = grammar(...)`
wrapper holding the language name, the conflict declarations, the start-rule
forwarder, the converted rule list and the optional core-rule block. -/
def sourceFileText (ctx : Ctx) (irf : String) (body : String) : String :=
  "\n" ++ irf ++ "\n\nmodule.exports = grammar(\x7b\n  name: '" ++ ctx.langName ++
    "',\n\n  conflicts: $ => [\n    " ++ joinSep ",\n    " ctx.conflicts ++
    "\n  ],\n\n  rules: \x7b\n    // start rule\n    source_file: $ => $." ++
    ctx.startRule ++ ",\n\n" ++ body ++ "\n    " ++
    coreRulesText ctx.includeCoreRules ++ "\n  \x7d\n\x7d);"

mutual

/-- The recursive translator `convert` from `src/main.js` lines 77-259,
fuel-indexed (`none` at fuel 0 models exhausting the JavaScript call stack;
every theorem below quantifies over sufficient fuel).  `none` models a thrown
exception: a failed `assert`, a property access on `undefined`/`null`, an
invalid array length, or the `TypeError` raised inside `unsupported` when it
is handed a plain string.  `JsStr.undef` models the `undefined` returned by
the non-throwing `unsupported` fall-through branches. -/
def convert : Nat → Ctx → Node → Option JsStr
  | 0, _, _ => none
  | fuel + 1, ctx, node =>
    if node.type = "source_file" then
      -- assert(node.namedChildren.length === 1)
      match node.namedChildren with
      | [fc] => do
        let irf ← inlineRuleFuncs fuel ctx node
        let body ← convert fuel ctx fc
        pure (JsStr.s (sourceFileText ctx irf (templ body)))
      | _ => none
    else if node.type = "comment" then
      pure (JsStr.s ("    // " ++ jsTrimEndStr node.text))
    else if node.type = "rulelist" then do
      let vs ← node.namedChildren.mapM (convert fuel ctx)
      -- the filter calls `x.trim()`, which throws on an `undefined` entry
      let strs ← vs.mapM (fun v => match v with
        | JsStr.s w => some w
        | JsStr.undef => none)
      pure (JsStr.s (joinSep ",\n" (strs.filter (fun w => (jsTrimStr w).length != 0))))
    else if node.type = "elements" then do
      -- JS returns the mapped *array*; both use sites interpolate it into a
      -- template literal, which joins the entries with "," (and turns an
      -- `undefined` entry into the empty string), so the coerced string is
      -- modelled directly.
      let vs ← node.namedChildren.mapM (convert fuel ctx)
      pure (JsStr.s (joinJsArr "," vs))
    else if node.type = "rule" then do
      let rn ← (descendantsOfType "rulename" node).head?
      let nameV ← convert fuel ctx rn
      -- a `rulename` node always converts to a string, never to `undefined`
      let name ← (match nameV with
        | JsStr.s w => some w
        | JsStr.undef => none)
      if name ∈ ctx.inlineRules then
        pure (JsStr.s "")
      else do
        let da ← (descendantsOfType "defined_as" node).head?
        let defTypeV ← convert fuel ctx da
        let els ← (descendantsOfType "elements" node).head?
        let elementsV ← convert fuel ctx els
        if defTypeV = JsStr.s "/=" then
          -- `unsupported(defType)` receives a plain *string*: the helper
          -- evaluates `node.type.toString()`, `.type` of a string is
          -- `undefined`, and `.toString()` of `undefined` throws a
          -- TypeError, aborting the whole translation.
          none
        else
          -- the hidden-rule renaming happens before the two conversions in
          -- the source, but is pure, so it commutes with them
          let name2 := if name ∈ ctx.hiddenRules then "_" ++ name else name
          pure (JsStr.s ("    " ++ name2 ++ ": $ =>\n      " ++ templ elementsV))
    else if node.type = "rulename" then
      pure (JsStr.s (normalizeRulename node.text))
    else if node.type = "defined_as" then
      pure (JsStr.s (jsTrimStr node.text))
    else if node.type = "alternation" then
      -- assert(node.namedChildren.length >= 1)
      match node.namedChildren with
      | [] => none
      | [c] => convert fuel ctx c
      | cs => do
        let vs ← (cs.filter (fun c => c.type != "comment")).mapM (convert fuel ctx)
        pure (JsStr.s ("choice(" ++ joinJsArr ", " vs ++ ")"))
    else if node.type = "concatenation" then
      match node.namedChildren with
      | [] => none
      | [c] => convert fuel ctx c
      | cs => do
        let vs ← (cs.filter (fun c => c.type != "comment")).mapM (convert fuel ctx)
        pure (JsStr.s ("seq(" ++ joinJsArr ", " vs ++ ")"))
    else if node.type = "repetition" then
      match node.namedChildren with
      | [] => none
      | [c] => convert fuel ctx c
      | [_, _] => do
        -- repeat := node.firstNamedChild; element := convert(repeat.nextSibling)
        let pr ← firstNamedAndNext node.children
        let elemNode ← pr.2
        let elemV ← convert fuel ctx elemNode
        let el := templ elemV
        match jsFindIndex (fun c => c.text == "*") pr.1.children with
        | some si =>
          let lowerO : Option Nat :=
            if si = 0 then some 0
            else parseIntJS (joinSep "" ((pr.1.children.take si).map Node.text))
          if si + 1 = pr.1.children.length then
            match lowerO with
            | none => none   -- NaN lower bound: Array(NaN) throws RangeError
            | some l =>
              if l = 0 then pure (JsStr.s ("repeat(" ++ el ++ ")"))
              else if l = 1 then pure (JsStr.s ("repeat1(" ++ el ++ ")"))
              else pure (JsStr.s ("seq(" ++ joinSep ", " (List.replicate l el) ++
                ", repeat(" ++ el ++ "))"))
          else
            match lowerO,
              parseIntJS (joinSep "" ((pr.1.children.drop (si + 1)).map Node.text)) with
            | some l, some u =>
              if l ≤ u then
                let optionals :=
                  joinSep ", " (List.replicate (u - l) ("optional(" ++ el ++ ")"))
                if l = 0 then pure (JsStr.s ("seq(" ++ optionals ++ ")"))
                else pure (JsStr.s ("seq(" ++ joinSep ", " (List.replicate l el) ++
                  ", " ++ optionals ++ ")"))
              else none    -- Array(u - l) with a negative length throws RangeError
            | _, _ => none -- a NaN bound reaches Array(NaN): RangeError
        | none =>
          match parseIntJS (joinSep "" (pr.1.children.map Node.text)) with
          | some n => pure (JsStr.s ("seq(" ++ joinSep ", " (List.replicate n el) ++ ")"))
          | none => none   -- Array(NaN) throws RangeError
      | _ => none   -- assert(node.namedChildren.length === 2)
    else if node.type = "option" then
      match node.namedChildren with
      | [] => none   -- convert(null) dereferences `.type` of null
      | c :: _ => do
        let v ← convert fuel ctx c
        pure (JsStr.s ("optional(" ++ templ v ++ ")"))
    else if node.type = "element" then
      match node.namedChildren with
      | [] => none   -- `node.firstNamedChild.type` dereferences null
      | c :: _ =>
        if c.type = "rulename" ∨ c.type = "core_rulename" then
          let name := normalizeRulename (jsTrimStr node.text)
          if name ∈ ctx.inlineRules then pure (JsStr.s (name ++ "($)"))
          else if name ∈ ctx.hiddenRules then pure (JsStr.s ("$._" ++ name))
          else pure (JsStr.s ("$." ++ name))
        else convert fuel ctx c
    else if node.type = "group" ∨ node.type = "char_val" ∨
        node.type = "case_insensitive_string" then
      match node.namedChildren with
      | [] => none
      | c :: _ => convert fuel ctx c
    else if node.type = "quoted_string" then
      pure (JsStr.s (escapeBackslashes node.text))
    else if node.type = "num_val" then
      -- assert(node.children.length === 2); assert(node.firstChild.type === '%')
      match node.children with
      | [p, c1] => if p.type = "%" then convert fuel ctx c1 else none
      | _ => none
    else if node.type = "hex_val" then
      if node.children.isEmpty then none   -- assert(false, "ZERO children")
      else
        match jsFindIndex (fun c => c.type == "-") node.children with
        | some i =>
          let beforeSep := pad4 (joinSep ""
            (((node.children.take i).filter (fun c => c.type == "HEXDIG")).map Node.text))
          let afterSep := pad4 (joinSep ""
            (((node.children.drop (i + 1)).filter (fun c => c.type == "HEXDIG")).map Node.text))
          pure (JsStr.s ("/[\\u" ++ beforeSep ++ "-\\u" ++ afterSep ++ "]/"))
        | none =>
          if node.children.length % 3 = 0 then do
            let hexChars ← hexTriplets node.children
            pure (JsStr.s ("\"" ++ hexChars ++ "\""))
          else if node.children.length ≤ 7 then
            match node.children with
            | [] => none
            | x0 :: rest =>
              if x0.type = "x" then do
                let ds ← hexDigitsRun rest
                pure (JsStr.s ("\"\\u" ++ pad4 ds ++ "\""))
              else none   -- assert(node.child(0).type === 'x')
          else pure JsStr.undef   -- unsupported(node): reported, returns undefined
    else pure JsStr.undef   -- default: unsupported(node): reported, returns undefined

/-- `inlineRuleFuncs` from `src/main.js` lines 59-75: over the
`source_file` node, collect the `rule` descendants whose normalized name is
in the inline set and emit one `const <name> = $ => <body>;` line per rule,
joined with newlines. -/
def inlineRuleFuncs : Nat → Ctx → Node → Option String
  | 0, _, _ => none
  | fuel + 1, ctx, node =>
    if node.type = "source_file" then
      -- assert(node.children.length === 1); node.firstChild
      match node.children with
      | [fc] => do
        let kept ← inlineRuleFilter ctx.inlineRules (descendantsOfType "rule" fc)
        let lines ← inlineRuleMap (convert fuel ctx) kept
        pure (joinSep "\n" lines)
      | _ => none
    else none

end

/-- The mutable state of one generation session: the fields of the object
returned by `abnf(options)` that `generate()` reads and mutates across
retries. -/
structure Session : Type where
  grammarSource : String
  startRule : String
  languageName : String
  includeCoreRules : Bool
  hiddenRules : List String
  inlineRules : List String
  conflicts : List String
deriving DecidableEq

/-- The `toTreeSitter` argument vector built from a session on each attempt
(`this.treeSitter()`). -/
def Session.toCtx (s : Session) : Ctx :=
  { startRule := s.startRule
    langName := s.languageName
    includeCoreRules := s.includeCoreRules
    inlineRules := s.inlineRules
    conflicts := s.conflicts
    hiddenRules := s.hiddenRules }

/-- What the failure branch of `generate()` does after classifying the
diagnostic: invoke `this.generate()` again (a retry), print actionable
guidance and stop, or give up on an unrecognized diagnostic. -/
inductive GenAction : Type where
  | retry
  | suggestPrecedence (name : String)
  | suggestAssociativity (name : String)
  | giveUp
deriving DecidableEq

/-- `'\x60'` (the backtick), kept out of character-literal syntax. -/
def backtickChar : Char := Char.ofNat 96

/-- A regex `.` (any character except a line terminator). -/
def isRegexDotChar (c : Char) : Bool :=
  ¬ (c.val = 10 ∨ c.val = 13 ∨ c.val = 0x2028 ∨ c.val = 0x2029)

/-- One anchored attempt of the pattern
`pre ++ backtick-free-capture ++ backtick ++ post ++ (any char)?`:
`pre` ends with the opening backtick, the capture is the maximal backtick-free
run, the closing backtick and the literal `post` must follow, and when
`dotEnd` is set one further non-line-terminator character must follow (the
unescaped final `.` of the source regex).  Returns the capture. -/
def matchCaptureAt (pre post : List Char) (dotEnd : Bool) (l : List Char) :
    Option (List Char) :=
  if pre.isPrefixOf l then
    let rest := l.drop pre.length
    let nm := rest.takeWhile (fun c => c ≠ backtickChar)
    match rest.drop nm.length with
    | c :: rest3 =>
      if c = backtickChar ∧ post.isPrefixOf rest3 then
        if dotEnd then
          match rest3.drop post.length with
          | d :: _ => if isRegexDotChar d then some nm else none
          | [] => none
        else some nm
      else none
    | [] => none
  else none

/-- Leftmost match of the captured pattern: try every start position from the
left (regex search semantics; at a given start the maximal backtick-free
capture is the only candidate, since shrinking it puts a non-backtick where
the closing backtick must be). -/
def scanCapture (pre post : List Char) (dotEnd : Bool) : List Char → Option (List Char)
  | [] => none
  | c :: rest =>
    match matchCaptureAt pre post dotEnd (c :: rest) with
    | some nm => some nm
    | none => scanCapture pre post dotEnd rest

/-- The match of `err.match(/The rule X matches the empty string./)` where
`X` is the backtick-quoted capture: returns capture group 1. -/
def matchEmptyRule (err : String) : Option String :=
  (scanCapture "The rule `".data " matches the empty string".data true err.data).map
    String.mk

/-- The match of the needs-higher-precedence diagnostic
(`Specify a higher precedence in X than in the other rules.` with `X`
backtick-quoted): returns capture group 1. -/
def matchHigherPrecedence (err : String) : Option String :=
  (scanCapture "Specify a higher precedence in `".data
    " than in the other rules".data true err.data).map String.mk

/-- The match of the needs-associativity diagnostic
(`Specify a left or right associativity in X` with `X` backtick-quoted):
returns capture group 1. -/
def matchAssociativity (err : String) : Option String :=
  (scanCapture "Specify a left or right associativity in `".data
    [] false err.data).map String.mk

/-- One anchored attempt of the add-conflict pattern: the literal prefix,
then the capture group, which itself starts with a backtick, greedily spans
non-line-terminator characters, and ends at the **last** backtick of that
span (greedy `.*` followed by a literal backtick). -/
def matchConflictAt (l : List Char) : Option (List Char) :=
  let pre := "Add a conflict for these rules: ".data
  if pre.isPrefixOf l then
    match l.drop pre.length with
    | c :: rest =>
      if c = backtickChar then
        let seg := rest.takeWhile isRegexDotChar
        match (seg.reverse.takeWhile (fun d => d ≠ backtickChar)), seg.reverse.drop ((seg.reverse.takeWhile (fun d => d ≠ backtickChar)).length) with
        | _, [] => none   -- no closing backtick on the line
        | tail, _ :: _ =>
          -- the capture ends at the last backtick: drop the backtick-free
          -- tail of the segment
          some (backtickChar :: (seg.take (seg.length - tail.length - 1) ++ [backtickChar]))
      else none
    | [] => none
  else none

/-- Leftmost match for the add-conflict diagnostic: returns capture group 1,
backticks included (as the source uses it). -/
def scanConflict : List Char → Option (List Char)
  | [] => none
  | c :: rest =>
    match matchConflictAt (c :: rest) with
    | some cap => some cap
    | none => scanConflict rest

/-- `err.match(/Add a conflict for these rules: ... /)` capture group 1. -/
def matchAddConflict (err : String) : Option String :=
  (scanConflict err.data).map String.mk

/-- `String.prototype.split(',')`: split on every comma, keeping empty
pieces (`"".split(',')` is `[""]`). -/
def splitOnComma : List Char → List (List Char)
  | [] => [[]]
  | c :: rest =>
    if c = ',' then [] :: splitOnComma rest
    else
      match splitOnComma rest with
      | g :: gs => (c :: g) :: gs
      | [] => [[c]]

/-- `convertQuotedName` inside the add-conflict branch: trim the piece,
delete every backtick, normalize, and prefix `$.`. -/
def convertQuotedName (piece : List Char) : String :=
  "$." ++ normalizeRulename (String.mk ((jsTrimChars piece).filter
    (fun c => c ≠ backtickChar)))

/-- The conflict entry pushed by the add-conflict branch:
`'[' + capture.split(',').map(convertQuotedName).join(', ') + ']'`. -/
def mkConflictEntry (cap : String) : String :=
  "[" ++ joinSep ", " ((splitOnComma cap.data).map convertQuotedName) ++ "]"

/-- The diagnostic-classification step of `generate()` (`src/main.js` lines
303-336), taken when the external generator exits nonzero with error text
`err`.  The four regex matchers are evaluated and then tried in source
order (empty-string, higher-precedence, associativity, add-conflict); the
first hit decides the action.  `GenAction.retry` models the recursive
`this.generate()` call, so one step performs exactly one regeneration. -/
def generateStep (s : Session) (err : String) : Session × GenAction :=
  match matchEmptyRule err with
  | some name => ({ s with inlineRules := s.inlineRules ++ [name] }, GenAction.retry)
  | none =>
    match matchHigherPrecedence err with
    | some name => (s, GenAction.suggestPrecedence name)
    | none =>
      match matchAssociativity err with
      | some name => (s, GenAction.suggestAssociativity name)
      | none =>
        match matchAddConflict err with
        | some cap =>
          ({ s with conflicts := s.conflicts ++ [mkConflictEntry cap] }, GenAction.retry)
        | none => (s, GenAction.giveUp)

/-- A leaf token node (anonymous): kind tag and source text, no children. -/
def token (ty tx : String) : Node := Node.mk ty tx false []

/-- The `'*'` token of a repeat operator. -/
def starToken : Node := token "*" "*"

/-- A digit-run token of a repeat operator (only its text is read). -/
def digitsToken (tx : String) : Node := token "DIGIT" tx

/-- A repeat-operator node with the given token children. -/
def repeatOpNode (cs : List Node) : Node := Node.mk "repeat" "" true cs

/-- A two-child repetition node: the repeat operator and the element. -/
def repetitionNode (op elem : Node) : Node :=
  Node.mk "repetition" "" true [op, elem]

/-- A `hex_val` node over its token children. -/
def hexValNode (cs : List Node) : Node := Node.mk "hex_val" "" true cs

/-- A `HEXDIG` token. -/
def hexDigitToken (tx : String) : Node := token "HEXDIG" tx

/-- The `'x'` marker token of a hex value. -/
def xMarkerToken : Node := token "x" "x"

/-- The `'-'` range separator token of a hex value. -/
def dashToken : Node := token "-" "-"

/-- A `rulename` leaf node. -/
def rulenameNode (t : String) : Node := Node.mk "rulename" t true []

/-- A `defined_as` leaf node. -/
def definedAsNode (t : String) : Node := Node.mk "defined_as" t false []

/-- A `quoted_string` leaf node. -/
def quotedStringNode (t : String) : Node := Node.mk "quoted_string" t true []

/-- An `elements` node over its named children. -/
def elementsNode (cs : List Node) : Node := Node.mk "elements" "" true cs

/-- A rule node `name defined-as elements`. -/
def mkRuleNode (name defop : String) (body : Node) : Node :=
  Node.mk "rule" "" true [rulenameNode name, definedAsNode defop, elementsNode [body]]

/-- A `rulelist` node over its rules. -/
def rulelistNode (cs : List Node) : Node := Node.mk "rulelist" "" true cs

/-- A `source_file` node over its rule list. -/
def sourceFileNode (rl : Node) : Node := Node.mk "source_file" "" true [rl]

/-- An `element` node: the element's source text and its one named child. -/
def elementNode (txt : String) (c : Node) : Node := Node.mk "element" txt true [c]

/-- The argument list denoted by the text between `seq(` and `)` in the
emitted JavaScript: call syntax permits one trailing comma, which does not
add an argument, so both renderings denote the same argument sequence. -/
def jsCallArgs (args : List String) (t : String) : Prop :=
  t = joinSep ", " args ∨ t = joinSep ", " args ++ ", "

/-- A context with no inline, hidden or conflict configuration. -/
def ctxEmpty : Ctx :=
  { startRule := "start", langName := "lang", includeCoreRules := false
    inlineRules := [], conflicts := [], hiddenRules := [] }

/-- A context whose inline set is `["foo"]` and whose hidden set is
`["foo", "bar"]`. -/
def ctxInlineHidden : Ctx :=
  { startRule := "start", langName := "lang", includeCoreRules := false
    inlineRules := ["foo"], conflicts := [], hiddenRules := ["foo", "bar"] }

/-- The rule `foo /= "a"`, using the incremental-alternative operator. -/
def incAltRuleNode : Node := mkRuleNode "foo" " /= " (quotedStringNode "\"a\"")

/-- The sibling rule `bar = "b"`. -/
def siblingRuleNode : Node := mkRuleNode "bar" " = " (quotedStringNode "\"b\"")

/-- The single hex value `%x41` (token count 3: marker plus two digits). -/
def hexX41Node : Node :=
  hexValNode [xMarkerToken, hexDigitToken "4", hexDigitToken "1"]

/-- The single hex value `%x00e9` (token count 5). -/
def hexX00E9Node : Node :=
  hexValNode [xMarkerToken, hexDigitToken "0", hexDigitToken "0",
    hexDigitToken "e", hexDigitToken "9"]

/-- The hex range `%x20-7E`. -/
def hexRange207ENode : Node :=
  hexValNode [xMarkerToken, hexDigitToken "2", hexDigitToken "0", dashToken,
    hexDigitToken "7", hexDigitToken "E"]

/-- A session with empty inline/hidden/conflict configuration. -/
def sessionEmpty : Session :=
  { grammarSource := "examples/abnf/g.abnf", startRule := "start"
    languageName := "g", includeCoreRules := false
    hiddenRules := [], inlineRules := [], conflicts := [] }

/-- A generator diagnostic containing both the empty-string pattern and the
needs-higher-precedence pattern. -/
def mixedDiagnostic : String :=
  "The rule `a` matches the empty string. Specify a higher precedence in `b` than in the other rules."

/-- The needs-higher-precedence diagnostic alone. -/
def precedenceDiagnostic : String :=
  "Specify a higher precedence in `b` than in the other rules."

/-- The empty-string diagnostic alone. -/
def emptyRuleDiagnostic : String :=
  "The rule `foo` matches the empty string."

/-- Unfolding lemmas support: `joinSep` on a two-or-more list. -/
theorem joinSep_cons_cons (sep x y : String) (xs : List String) :
    joinSep sep (x :: y :: xs) = x ++ sep ++ joinSep sep (y :: xs) := rfl

/-- `Array.join` distributes over list append (both sides nonempty). -/
theorem joinSep_append (sep : String) (a b : List String) (ha : a ≠ []) (hb : b ≠ []) :
    joinSep sep (a ++ b) = joinSep sep a ++ sep ++ joinSep sep b := by
  induction a with
  | nil => exact absurd rfl ha
  | cons x xs ih =>
    cases xs with
    | nil =>
      cases b with
      | nil => exact absurd rfl hb
      | cons y ys => simp [joinSep]
    | cons x2 xs2 =>
      have h2 := ih (by simp)
      simp only [List.cons_append] at h2 ⊢
      rw [joinSep_cons_cons, joinSep_cons_cons, h2]
      simp [String.append_assoc]

/-- `parseInt('*')` is `NaN`. -/
theorem parseIntJS_star : parseIntJS "*" = none := by decide

/-- **C1.** For every repetition node whose operator has a `'*'` with a
bounded upper bound `u` and lower bound `L` (`L` defaulting to `0` when the
digit run before `'*'` is absent), the translation is a `seq(...)` whose
argument list is `L` required copies of the translated element followed by
exactly `u − L` `optional(element)` entries, with no leading required copies
when `L = 0` (`jsCallArgs` permits the trailing comma JavaScript call syntax
ignores, emitted when `u = L`). -/
theorem c1_bounded_repetition (fuel : Nat) (ctx : Ctx) (elem : Node)
    (e ls us : String) (L u : Nat)
    (helem : convert fuel ctx elem = some (JsStr.s e))
    (hnamed : elem.named = true)
    (hlo : parseIntJS ls = some L)
    (hup : parseIntJS us = some u)
    (hle : L ≤ u) :
    (∃ t, convert (fuel + 1) ctx
        (repetitionNode (repeatOpNode [digitsToken ls, starToken, digitsToken us]) elem)
        = some (JsStr.s ("seq(" ++ t ++ ")")) ∧
        jsCallArgs
          (List.replicate L e ++ List.replicate (u - L) ("optional(" ++ e ++ ")")) t)
    ∧
    (∃ t, convert (fuel + 1) ctx
        (repetitionNode (repeatOpNode [starToken, digitsToken us]) elem)
        = some (JsStr.s ("seq(" ++ t ++ ")")) ∧
        jsCallArgs (List.replicate u ("optional(" ++ e ++ ")")) t) := by
  have hlsne : ls ≠ "*" := by
    intro h; rw [h, parseIntJS_star] at hlo; exact Option.noConfusion hlo
  have hne : (ls == "*") = false := beq_eq_false_iff_ne.mpr hlsne
  obtain ⟨ty, tx, nb, ecs⟩ := elem
  simp only [Node.named] at hnamed
  subst hnamed
  constructor
  · by_cases hL0 : L = 0
    · subst hL0
      refine ⟨joinSep ", " (List.replicate u ("optional(" ++ e ++ ")")), ?_, Or.inl ?_⟩
      · simp [convert, repetitionNode, repeatOpNode, starToken, digitsToken, token,
          Node.type, Node.namedChildren, Node.children, Node.named, Node.text,
          firstNamedAndNext, jsFindIndex, helem, templ, List.filter, joinSep, hne,
          hlo, hup, hle]
      · simp
    · rcases Nat.lt_or_ge L u with hlt | hge
      · refine ⟨joinSep ", " (List.replicate L e) ++ ", " ++
          joinSep ", " (List.replicate (u - L) ("optional(" ++ e ++ ")")), ?_, Or.inl ?_⟩
        · simp [convert, repetitionNode, repeatOpNode, starToken, digitsToken, token,
            Node.type, Node.namedChildren, Node.children, Node.named, Node.text,
            firstNamedAndNext, jsFindIndex, helem, templ, List.filter, joinSep, hne,
            hlo, hup, hle, hL0, String.append_assoc]
        · rw [joinSep_append _ _ _ (by simpa using hL0)
            (by simpa using Nat.sub_ne_zero_of_lt hlt)]
      · have heq : u = L := Nat.le_antisymm hge hle
        subst heq
        refine ⟨joinSep ", " (List.replicate u e) ++ ", ", ?_, Or.inr ?_⟩
        · simp [convert, repetitionNode, repeatOpNode, starToken, digitsToken, token,
            Node.type, Node.namedChildren, Node.children, Node.named, Node.text,
            firstNamedAndNext, jsFindIndex, helem, templ, List.filter, joinSep, hne,
            hlo, hup, hle, hL0, String.append_assoc, String.append_empty]
        · simp
  · refine ⟨joinSep ", " (List.replicate u ("optional(" ++ e ++ ")")), ?_, Or.inl ?_⟩
    · simp [convert, repetitionNode, repeatOpNode, starToken, digitsToken, token,
        Node.type, Node.namedChildren, Node.children, Node.named, Node.text,
        firstNamedAndNext, jsFindIndex, helem, templ, List.filter, joinSep, hup]
    · simp

/-- Witness for C1 at `2*4"a"`: two required copies followed by two optional
copies, and at `*4"a"`: four optional copies. -/
theorem c1_bounded_repetition_witness :
    (∃ t, convert 2 ctxEmpty
        (repetitionNode (repeatOpNode [digitsToken "2", starToken, digitsToken "4"])
          (quotedStringNode "\"a\""))
        = some (JsStr.s ("seq(" ++ t ++ ")")) ∧
        jsCallArgs
          (List.replicate 2 "\"a\"" ++
            List.replicate (4 - 2) ("optional(" ++ "\"a\"" ++ ")")) t)
    ∧
    (∃ t, convert 2 ctxEmpty
        (repetitionNode (repeatOpNode [starToken, digitsToken "4"])
          (quotedStringNode "\"a\""))
        = some (JsStr.s ("seq(" ++ t ++ ")")) ∧
        jsCallArgs (List.replicate 4 ("optional(" ++ "\"a\"" ++ ")")) t) :=
  c1_bounded_repetition 1 ctxEmpty (quotedStringNode "\"a\"") "\"a\"" "2" "4" 2 4
    (by decide) (by decide) (by decide) (by decide) (by decide)

/-- **C2.** For every repetition node whose operator has a `'*'` and no
trailing digit run (unbounded upper bound): lower bound `0` translates to
`repeat(element)`, `1` to `repeat1(element)`, and `k > 1` to a `seq` of `k`
copies of the element followed by `repeat(element)`; the second conjunct
covers the absent digit run (lower bound defaulting to `0`). -/
theorem c2_unbounded_repetition (fuel : Nat) (ctx : Ctx) (elem : Node)
    (e ls : String) (L : Nat)
    (helem : convert fuel ctx elem = some (JsStr.s e))
    (hnamed : elem.named = true)
    (hlo : parseIntJS ls = some L) :
    convert (fuel + 1) ctx
        (repetitionNode (repeatOpNode [digitsToken ls, starToken]) elem)
      = some (JsStr.s (if L = 0 then "repeat(" ++ e ++ ")"
          else if L = 1 then "repeat1(" ++ e ++ ")"
          else "seq(" ++ joinSep ", " (List.replicate L e) ++
            ", repeat(" ++ e ++ "))"))
    ∧
    convert (fuel + 1) ctx (repetitionNode (repeatOpNode [starToken]) elem)
      = some (JsStr.s ("repeat(" ++ e ++ ")")) := by
  have hlsne : ls ≠ "*" := by
    intro h; rw [h, parseIntJS_star] at hlo; exact Option.noConfusion hlo
  have hne : (ls == "*") = false := beq_eq_false_iff_ne.mpr hlsne
  obtain ⟨ty, tx, nb, ecs⟩ := elem
  simp only [Node.named] at hnamed
  subst hnamed
  constructor
  · by_cases hL0 : L = 0
    · subst hL0
      simp [convert, repetitionNode, repeatOpNode, starToken, digitsToken, token,
        Node.type, Node.namedChildren, Node.children, Node.named, Node.text,
        firstNamedAndNext, jsFindIndex, helem, templ, List.filter, joinSep, hne, hlo]
    · by_cases hL1 : L = 1
      · subst hL1
        simp [convert, repetitionNode, repeatOpNode, starToken, digitsToken, token,
          Node.type, Node.namedChildren, Node.children, Node.named, Node.text,
          firstNamedAndNext, jsFindIndex, helem, templ, List.filter, joinSep, hne, hlo]
      · simp [convert, repetitionNode, repeatOpNode, starToken, digitsToken, token,
          Node.type, Node.namedChildren, Node.children, Node.named, Node.text,
          firstNamedAndNext, jsFindIndex, helem, templ, List.filter, joinSep, hne,
          hlo, hL0, hL1]
  · simp [convert, repetitionNode, repeatOpNode, starToken, token,
      Node.type, Node.namedChildren, Node.children, Node.named, Node.text,
      firstNamedAndNext, jsFindIndex, helem, templ, List.filter, joinSep]

/-- Witness for C2 at lower bounds 0, 1 and 3 and at the absent digit run. -/
theorem c2_unbounded_repetition_witness :
    convert 2 ctxEmpty
        (repetitionNode (repeatOpNode [digitsToken "0", starToken])
          (quotedStringNode "\"a\""))
      = some (JsStr.s (if 0 = 0 then "repeat(" ++ "\"a\"" ++ ")"
          else if 0 = 1 then "repeat1(" ++ "\"a\"" ++ ")"
          else "seq(" ++ joinSep ", " (List.replicate 0 "\"a\"") ++
            ", repeat(" ++ "\"a\"" ++ "))"))
    ∧
    convert 2 ctxEmpty
        (repetitionNode (repeatOpNode [digitsToken "1", starToken])
          (quotedStringNode "\"a\""))
      = some (JsStr.s (if 1 = 0 then "repeat(" ++ "\"a\"" ++ ")"
          else if 1 = 1 then "repeat1(" ++ "\"a\"" ++ ")"
          else "seq(" ++ joinSep ", " (List.replicate 1 "\"a\"") ++
            ", repeat(" ++ "\"a\"" ++ "))"))
    ∧
    convert 2 ctxEmpty
        (repetitionNode (repeatOpNode [digitsToken "3", starToken])
          (quotedStringNode "\"a\""))
      = some (JsStr.s (if 3 = 0 then "repeat(" ++ "\"a\"" ++ ")"
          else if 3 = 1 then "repeat1(" ++ "\"a\"" ++ ")"
          else "seq(" ++ joinSep ", " (List.replicate 3 "\"a\"") ++
            ", repeat(" ++ "\"a\"" ++ "))"))
    ∧
    convert 2 ctxEmpty
        (repetitionNode (repeatOpNode [starToken]) (quotedStringNode "\"a\""))
      = some (JsStr.s ("repeat(" ++ "\"a\"" ++ ")")) :=
  ⟨(c2_unbounded_repetition 1 ctxEmpty (quotedStringNode "\"a\"") "\"a\"" "0" 0
      (by decide) (by decide) (by decide)).1,
    (c2_unbounded_repetition 1 ctxEmpty (quotedStringNode "\"a\"") "\"a\"" "1" 1
      (by decide) (by decide) (by decide)).1,
    (c2_unbounded_repetition 1 ctxEmpty (quotedStringNode "\"a\"") "\"a\"" "3" 3
      (by decide) (by decide) (by decide)).1,
    (c2_unbounded_repetition 1 ctxEmpty (quotedStringNode "\"a\"") "\"a\"" "3" 3
      (by decide) (by decide) (by decide)).2⟩

/-- `replaceDash` maps no character into or out of the JS whitespace set. -/
theorem isJsWs_replaceDash (c : Char) : isJsWs (replaceDash c) = isJsWs c := by
  by_cases h : c = '-'
  · subst h; decide
  · simp [replaceDash, h]

/-- `replaceDash` is idempotent pointwise. -/
theorem replaceDash_idem (c : Char) : replaceDash (replaceDash c) = replaceDash c := by
  by_cases h : c = '-'
  · subst h; decide
  · simp [replaceDash, h]

/-- `dropWhile` commutes with a map that preserves the predicate. -/
theorem dropWhile_map_comm (f : Char → Char) (p : Char → Bool)
    (hf : ∀ c, p (f c) = p c) (l : List Char) :
    (l.map f).dropWhile p = (l.dropWhile p).map f := by
  induction l with
  | nil => rfl
  | cons a l ih =>
    by_cases h : p a
    · simp [List.dropWhile_cons, h, hf, ih]
    · simp [List.dropWhile_cons, h, hf]

/-- `rdropWhile` commutes with a map that preserves the predicate. -/
theorem rdropWhile_map_comm (f : Char → Char) (p : Char → Bool)
    (hf : ∀ c, p (f c) = p c) (l : List Char) :
    (l.map f).rdropWhile p = (l.rdropWhile p).map f := by
  simp only [List.rdropWhile]
  rw [← List.map_reverse, dropWhile_map_comm f p hf, List.map_reverse]

/-- Trimming commutes with a map that preserves whitespace-status. -/
theorem jsTrimChars_map_comm (f : Char → Char) (hf : ∀ c, isJsWs (f c) = isJsWs c)
    (l : List Char) : jsTrimChars (l.map f) = (jsTrimChars l).map f := by
  simp only [jsTrimChars]
  rw [dropWhile_map_comm f isJsWs hf, rdropWhile_map_comm f isJsWs hf]

/-- A list left fixed by `dropWhile p` has a head that fails `p`. -/
theorem dropWhile_cons_false (p : Char → Bool) (c : Char) (l : List Char)
    (h : (c :: l).dropWhile p = c :: l) : p c = false := by
  by_contra hc
  have hc' : p c = true := by revert hc; cases p c <;> simp
  rw [List.dropWhile_cons] at h
  simp only [hc', if_true] at h
  have hlen := congrArg List.length h
  have hle : (List.dropWhile p l).length ≤ l.length :=
    (List.dropWhile_suffix p).length_le
  simp at hlen
  omega

/-- A prefix of a list left fixed by `dropWhile p` is itself left fixed. -/
theorem dropWhile_eq_self_of_prefix (p : Char → Bool) (a t : List Char)
    (ha : a.dropWhile p = a) (h : t <+: a) : t.dropWhile p = t := by
  cases t with
  | nil => rfl
  | cons c t2 =>
    obtain ⟨rest, hrest⟩ := h
    have hta : a = c :: (t2 ++ rest) := by rw [← hrest]; rfl
    rw [hta] at ha
    have hpc := dropWhile_cons_false p c (t2 ++ rest) ha
    rw [List.dropWhile_cons]
    simp [hpc]

/-- JS `trim` is idempotent on character lists. -/
theorem jsTrimChars_idem (l : List Char) :
    jsTrimChars (jsTrimChars l) = jsTrimChars l := by
  have h1 : (jsTrimChars l).dropWhile isJsWs = jsTrimChars l := by
    apply dropWhile_eq_self_of_prefix isJsWs (l.dropWhile isJsWs)
    · exact List.dropWhile_idempotent isJsWs l
    · exact List.rdropWhile_prefix isJsWs (l.dropWhile isJsWs)
  show ((jsTrimChars l).dropWhile isJsWs).rdropWhile isJsWs = jsTrimChars l
  rw [h1]
  exact List.rdropWhile_idempotent isJsWs (l.dropWhile isJsWs)

/-- **C9.** Rule-name normalization (trim, then hyphen → underscore) is
idempotent: `normalizeRulename (normalizeRulename s) = normalizeRulename s`
for every string `s`. -/
theorem c9_normalize_idempotent (s : String) :
    normalizeRulename (normalizeRulename s) = normalizeRulename s := by
  show String.mk ((jsTrimChars ((jsTrimChars s.data).map replaceDash)).map replaceDash) =
    String.mk ((jsTrimChars s.data).map replaceDash)
  rw [jsTrimChars_map_comm replaceDash isJsWs_replaceDash, jsTrimChars_idem,
    List.map_map]
  congr 1
  apply List.map_congr_left
  intro a _
  exact replaceDash_idem a

/-- **C5.** For every generator failure whose diagnostic text matches
`The rule X matches the empty string.` (backtick-quoted `X`), the
controller appends `X` to the session's inline-rule set and regenerates
(`GenAction.retry` is the one recursive `this.generate()` call of that
step), and every other session field — hidden set, conflict set, start
rule, source location, language name, core-rule flag — is unchanged. -/
theorem c5_empty_rule_feedback (s : Session) (err : String) (name : String)
    (h : matchEmptyRule err = some name) :
    (generateStep s err).1.inlineRules = s.inlineRules ++ [name] ∧
    (generateStep s err).1.hiddenRules = s.hiddenRules ∧
    (generateStep s err).1.conflicts = s.conflicts ∧
    (generateStep s err).1.startRule = s.startRule ∧
    (generateStep s err).1.grammarSource = s.grammarSource ∧
    (generateStep s err).1.languageName = s.languageName ∧
    (generateStep s err).1.includeCoreRules = s.includeCoreRules ∧
    (generateStep s err).2 = GenAction.retry := by
  simp [generateStep, h]

/-- Witness for C5 on the diagnostic `The rule \x60foo\x60 matches the empty
string.` against the empty session. -/
theorem c5_empty_rule_feedback_witness :
    (generateStep sessionEmpty emptyRuleDiagnostic).1.inlineRules =
      sessionEmpty.inlineRules ++ ["foo"] ∧
    (generateStep sessionEmpty emptyRuleDiagnostic).1.hiddenRules =
      sessionEmpty.hiddenRules ∧
    (generateStep sessionEmpty emptyRuleDiagnostic).1.conflicts =
      sessionEmpty.conflicts ∧
    (generateStep sessionEmpty emptyRuleDiagnostic).1.startRule =
      sessionEmpty.startRule ∧
    (generateStep sessionEmpty emptyRuleDiagnostic).1.grammarSource =
      sessionEmpty.grammarSource ∧
    (generateStep sessionEmpty emptyRuleDiagnostic).1.languageName =
      sessionEmpty.languageName ∧
    (generateStep sessionEmpty emptyRuleDiagnostic).1.includeCoreRules =
      sessionEmpty.includeCoreRules ∧
    (generateStep sessionEmpty emptyRuleDiagnostic).2 = GenAction.retry :=
  c5_empty_rule_feedback sessionEmpty emptyRuleDiagnostic "foo" (by decide)

/-- **C8 counterexample.** A diagnostic that matches the
needs-higher-precedence pattern but also contains the empty-string pattern:
the empty-string test is evaluated first, so the controller *does* mutate
the session (inline set grows) and *does* retry — the claim's "no mutation,
loop stops" fails at this concrete input. -/
theorem c8_counterexample :
    matchHigherPrecedence mixedDiagnostic = some "b" ∧
    (generateStep sessionEmpty mixedDiagnostic).2 = GenAction.retry ∧
    (generateStep sessionEmpty mixedDiagnostic).1.inlineRules ≠
      sessionEmpty.inlineRules := by
  refine ⟨by decide, ?_, ?_⟩ <;> simp [generateStep, show
    matchEmptyRule mixedDiagnostic = some "a" from by decide, sessionEmpty]

/-- **C8 (amended).** For every generator failure whose diagnostic matches
the needs-higher-precedence or needs-associativity pattern *and does not
match the empty-string pattern (which the controller tests first)*, the
controller surfaces the guidance to the caller, mutates no session field,
and does not retry. -/
theorem c8_actionable_only (s : Session) (err : String) (name : String)
    (hempty : matchEmptyRule err = none)
    (hmatch : matchHigherPrecedence err = some name ∨
      (matchHigherPrecedence err = none ∧ matchAssociativity err = some name)) :
    (generateStep s err).1 = s ∧
    ((generateStep s err).2 = GenAction.suggestPrecedence name ∨
      (generateStep s err).2 = GenAction.suggestAssociativity name) ∧
    (generateStep s err).2 ≠ GenAction.retry := by
  rcases hmatch with hp | ⟨hp, ha⟩
  · simp [generateStep, hempty, hp]
  · simp [generateStep, hempty, hp, ha]

/-- Witness for the amended C8 on the pure precedence diagnostic. -/
theorem c8_actionable_only_witness :
    (generateStep sessionEmpty precedenceDiagnostic).1 = sessionEmpty ∧
    ((generateStep sessionEmpty precedenceDiagnostic).2 =
        GenAction.suggestPrecedence "b" ∨
      (generateStep sessionEmpty precedenceDiagnostic).2 =
        GenAction.suggestAssociativity "b") ∧
    (generateStep sessionEmpty precedenceDiagnostic).2 ≠ GenAction.retry :=
  c8_actionable_only sessionEmpty precedenceDiagnostic "b" (by decide)
    (Or.inl (by decide))

/-- `Node.type` on a constructor. -/
theorem Node.type_mk (t s : String) (b : Bool) (cs : List Node) :
    Node.type (Node.mk t s b cs) = t := rfl

/-- `Node.text` on a constructor. -/
theorem Node.text_mk (t s : String) (b : Bool) (cs : List Node) :
    Node.text (Node.mk t s b cs) = s := rfl

/-- `Node.children` on a constructor. -/
theorem Node.children_mk (t s : String) (b : Bool) (cs : List Node) :
    Node.children (Node.mk t s b cs) = cs := rfl

/-- The hex digit `'0'` denotes zero. -/
theorem hexDigitVal_zero : hexDigitVal '0' = 0 := by decide

/-- Leading `'0'` characters do not change a hex fold from accumulator 0. -/
theorem foldlHex_zeros (k : Nat) (l : List Char) :
    List.foldl (fun a c => a * 16 + hexDigitVal c) 0 (List.replicate k '0' ++ l) =
    List.foldl (fun a c => a * 16 + hexDigitVal c) 0 l := by
  induction k with
  | zero => rfl
  | succ n ih =>
    simpa [List.replicate_succ, hexDigitVal_zero] using ih

/-- Left-padding with `'0'` preserves the denoted code point. -/
theorem hexValue_pad4 (s : String) : hexValue (pad4 s) = hexValue s := by
  show List.foldl (fun a c => a * 16 + hexDigitVal c) 0
      (String.mk (List.replicate (4 - s.length) '0') ++ s).data =
    List.foldl (fun a c => a * 16 + hexDigitVal c) 0 s.data
  exact foldlHex_zeros (4 - s.length) s.data

/-- `findIndex` hits the first element that satisfies the predicate. -/
theorem jsFindIndex_append_cons (p : Node → Bool) (pre post : List Node) (d : Node)
    (hpre : ∀ c ∈ pre, p c = false) (hd : p d = true) :
    jsFindIndex p (pre ++ d :: post) = some pre.length := by
  induction pre with
  | nil => simp [jsFindIndex, hd]
  | cons a l ih =>
    have ha := hpre a (by simp)
    have ih2 := ih (fun c hc => hpre c (by simp [hc]))
    simp [jsFindIndex, ha, ih2]

/-- **C7.** For every hex terminal-value node of the form `low "-" high`,
the translation left-pads each side independently to 4 hex digits (the
`HEXDIG` texts on each side of the `'-'`, joined) and emits the inclusive
character class `/[\uLLLL-\uHHHH]/`; the final two conjuncts state that the
padding preserves the code points, so the class covers exactly the
code points from `low` to `high` inclusive. -/
theorem c7_hex_range (fuel : Nat) (ctx : Ctx) (pre post : List Node)
    (slo shi : String)
    (hpre : ∀ c ∈ pre, c.type ≠ "-")
    (hlo : joinSep "" ((pre.filter (fun c => c.type == "HEXDIG")).map Node.text) = slo)
    (hhi : joinSep "" ((post.filter (fun c => c.type == "HEXDIG")).map Node.text) = shi) :
    convert (fuel + 1) ctx (hexValNode (pre ++ dashToken :: post)) =
      some (JsStr.s ("/[\\u" ++ pad4 slo ++ "-\\u" ++ pad4 shi ++ "]/")) ∧
    hexValue (pad4 slo) = hexValue slo ∧
    hexValue (pad4 shi) = hexValue shi := by
  have hpre' : ∀ c ∈ pre, (fun c => c.type == "-") c = false :=
    fun c hc => beq_eq_false_iff_ne.mpr (hpre c hc)
  have hfind := jsFindIndex_append_cons (fun c => c.type == "-") pre post dashToken
    hpre' (by decide)
  have hempty : (pre ++ dashToken :: post).isEmpty = false := by
    cases pre <;> rfl
  have htake : (pre ++ dashToken :: post).take pre.length = pre :=
    List.take_left pre (dashToken :: post)
  have hdrop : (pre ++ dashToken :: post).drop (pre.length + 1) = post := by
    rw [List.append_cons]
    have h1 : pre.length + 1 = (pre ++ [dashToken]).length := by simp
    rw [h1, List.drop_left]
  refine ⟨?_, hexValue_pad4 slo, hexValue_pad4 shi⟩
  simp [convert, hexValNode, Node.type_mk, Node.children_mk, hempty, hfind, htake,
    hdrop, hlo, hhi]

/-- Witness for C7 at `%x20-7E`: the emitted class is
`/[ -~]/`. -/
theorem c7_hex_range_witness :
    convert 1 ctxEmpty
        (hexValNode ([xMarkerToken, hexDigitToken "2", hexDigitToken "0"] ++
          dashToken :: [hexDigitToken "7", hexDigitToken "E"]))
      = some (JsStr.s "/[\\u0020-\\u007E]/") ∧
    hexValue (pad4 "20") = hexValue "20" ∧
    hexValue (pad4 "7E") = hexValue "7E" := by
  have h := c7_hex_range 0 ctxEmpty
    [xMarkerToken, hexDigitToken "2", hexDigitToken "0"]
    [hexDigitToken "7", hexDigitToken "E"] "20" "7E"
    (by decide) (by rfl) (by rfl)
  exact ⟨h.1.trans (by decide), h.2.1, h.2.2⟩

/-- Every node consumed by a successful `hexDigitsRun` is a `HEXDIG`. -/
theorem hexDigitsRun_mem_type (ds : List Node) (sd : String)
    (h : hexDigitsRun ds = some sd) : ∀ c ∈ ds, c.type = "HEXDIG" := by
  induction ds generalizing sd with
  | nil => intro c hc; cases hc
  | cons a l ih =>
    intro c hc
    by_cases ha : a.type = "HEXDIG"
    · rw [hexDigitsRun, if_pos ha] at h
      rcases List.mem_cons.mp hc with rfl | hc
      · exact ha
      · rcases Option.map_eq_some'.mp h with ⟨sd2, h2, _⟩
        exact ih sd2 h2 c hc
    · rw [hexDigitsRun, if_neg ha] at h
      exact Option.noConfusion h

/-- `findIndex` misses when no element satisfies the predicate. -/
theorem jsFindIndex_none (p : Node → Bool) (l : List Node)
    (h : ∀ c ∈ l, p c = false) : jsFindIndex p l = none := by
  induction l with
  | nil => rfl
  | cons a l ih =>
    have ha := h a (by simp)
    have ih2 := ih (fun c hc => h c (by simp [hc]))
    simp [jsFindIndex, ha, ih2]

/-- **C3 counterexample.** The single hex value `x41` has 3 tokens, a
multiple of three, so the translator routes it through the dotted-sequence
(byte) branch and emits the byte-escape literal `"\x41"` — not the
left-padded `"\u0041"` literal the claim requires (the two emitted strings
differ, though they denote the same code point U+0041). -/
theorem c3_counterexample :
    convert 1 ctxEmpty hexX41Node = some (JsStr.s "\"\\x41\"") ∧
    JsStr.s "\"\\x41\"" ≠ JsStr.s "\"\\u0041\"" := by decide

/-- **C3 (amended).** For every hex terminal-value node that is a single
value of at most 7 tokens whose token count is *not* a multiple of three
(the `'x'` marker plus the `HEXDIG` run, no range separator), the
translation left-pads the digit run to 4 hex digits and emits the `\u`
literal for exactly that code point (padding preserves the value); a single
value whose token count is a multiple of three, such as `x41`, is instead
handled by the dotted-sequence branch and emitted as the byte-escape
literal `"\x41"`, which denotes the same code point U+0041. -/
theorem c3_single_hex_value (fuel : Nat) (ctx : Ctx) (ds : List Node) (sd : String)
    (hds : hexDigitsRun ds = some sd)
    (hlen : ds.length + 1 ≤ 7)
    (hmod : (ds.length + 1) % 3 ≠ 0) :
    convert (fuel + 1) ctx (hexValNode (xMarkerToken :: ds)) =
      some (JsStr.s ("\"\\u" ++ pad4 sd ++ "\"")) ∧
    hexValue (pad4 sd) = hexValue sd ∧
    convert (fuel + 1) ctx hexX41Node = some (JsStr.s "\"\\x41\"") := by
  have htypes := hexDigitsRun_mem_type ds sd hds
  have hfind : jsFindIndex (fun c => c.type == "-") (xMarkerToken :: ds) = none := by
    apply jsFindIndex_none
    intro c hc
    rcases List.mem_cons.mp hc with rfl | hc
    · decide
    · have hty := htypes c hc
      simp [hty]
  have hx : xMarkerToken.type = "x" := rfl
  refine ⟨?_, hexValue_pad4 sd, ?_⟩
  · simp [convert, hexValNode, Node.type_mk, Node.children_mk, hfind, hds, hmod,
      hlen, hx]
  · simp +decide [convert, hexX41Node, hexValNode, xMarkerToken, hexDigitToken,
      token, Node.type_mk, Node.children_mk, jsFindIndex, hexTriplets]

/-- Witness for C3 (amended) at `x00e9` (5 tokens): the emitted literal is
`"\u00e9"`, and at `x41`: the emitted literal is `"\x41"`. -/
theorem c3_single_hex_value_witness :
    convert 1 ctxEmpty
        (hexValNode (xMarkerToken :: [hexDigitToken "0", hexDigitToken "0",
          hexDigitToken "e", hexDigitToken "9"]))
      = some (JsStr.s "\"\\u00e9\"") ∧
    hexValue (pad4 "00e9") = hexValue "00e9" ∧
    convert 1 ctxEmpty hexX41Node = some (JsStr.s "\"\\x41\"") := by
  have h := c3_single_hex_value 0 ctxEmpty
    [hexDigitToken "0", hexDigitToken "0", hexDigitToken "e", hexDigitToken "9"]
    "00e9" (by decide) (by decide) (by decide)
  exact ⟨h.1.trans (by decide), h.2.1, h.2.2⟩

/-- **C4 (code bug).** A rule whose defined-as operator is the incremental
alternative `/=` (and whose name is not in the inline set) does *not* yield
a non-fatal diagnostic and is not skipped: `unsupported(defType)` is called
with the plain string `"/="`, whose `.type` is `undefined`, so
`node.type.toString()` throws a TypeError and the whole translation aborts
(`none`), taking the sibling rules down with it — the same rule list
without the `/=` rule translates fine. -/
theorem c4_incremental_alternative_fatal :
    convert 3 ctxEmpty incAltRuleNode = none ∧
    convert 4 ctxEmpty (rulelistNode [incAltRuleNode, siblingRuleNode]) = none ∧
    convert 4 ctxEmpty (rulelistNode [siblingRuleNode]) =
      some (JsStr.s "    bar: $ =>\n      \"b\"") := by decide

/-- The `rule` case elides a rule whose converted name is in the inline
set: the early return yields the empty string before the defined-as and
body conversions. -/
theorem convert_rule_inlined (fuel : Nat) (ctx : Ctx) (node rn : Node)
    (rest : List Node) (name : String)
    (htype : node.type = "rule")
    (hdesc : descendantsOfType "rulename" node = rn :: rest)
    (hrn : convert fuel ctx rn = some (JsStr.s name))
    (hmem : name ∈ ctx.inlineRules) :
    convert (fuel + 1) ctx node = some (JsStr.s "") := by
  obtain ⟨ty, tx, b, cs⟩ := node
  simp only [Node.type_mk] at htype
  subst htype
  simp [convert, Node.type_mk, hdesc, hrn, hmem]

/-- The `element` case rewrites a reference to an inline rule into the
inline invocation `name($)` (the hidden set is never consulted on this
path). -/
theorem convert_element_inlined (fuel : Nat) (ctx : Ctx) (node c : Node)
    (cs2 : List Node) (name : String)
    (htype : node.type = "element")
    (hnc : node.namedChildren = c :: cs2)
    (hc : c.type = "rulename" ∨ c.type = "core_rulename")
    (hname : normalizeRulename (jsTrimStr node.text) = name)
    (hmem : name ∈ ctx.inlineRules) :
    convert (fuel + 1) ctx node = some (JsStr.s (name ++ "($)")) := by
  obtain ⟨ty, tx, b, cs⟩ := node
  simp only [Node.type_mk] at htype
  simp only [Node.text_mk] at hname
  subst htype
  rcases hc with hc | hc
  · simp [convert, Node.type_mk, Node.text_mk, hnc, hc, hname, hmem]
  · by_cases hc2 : c.type = "rulename"
    · simp [convert, Node.type_mk, Node.text_mk, hnc, hc2, hname, hmem]
    · simp [convert, Node.type_mk, Node.text_mk, hnc, hc, hc2, hname, hmem]

/-- `inlineRuleFuncs` emits one standalone parametrized expression
`const name = $ => body;` for an inlined rule (single-rule grammar). -/
theorem inlineRuleFuncs_single (fuel : Nat) (ctx : Ctx) (rl ruleN rn els : Node)
    (rrest erest : List Node) (name : String) (bodyV : JsStr)
    (hrules : descendantsOfType "rule" rl = [ruleN])
    (hrn : descendantsOfType "rulename" ruleN = rn :: rrest)
    (hname : normalizeRulename rn.text = name)
    (hels : descendantsOfType "elements" ruleN = els :: erest)
    (hbody : convert fuel ctx els = some bodyV)
    (hmem : name ∈ ctx.inlineRules) :
    inlineRuleFuncs (fuel + 1) ctx (sourceFileNode rl) =
      some ("const " ++ name ++ " = $ => " ++ templ bodyV ++ ";") := by
  simp [inlineRuleFuncs, sourceFileNode, Node.type_mk, Node.children_mk, hrules,
    inlineRuleFilter, hrn, hname, hmem, inlineRuleMap, hels, hbody, joinSep]

/-- **C6.** For every rule name in the inline set: a rule node bearing that
name converts to the empty string, so the descriptor never contains a named
rule definition for it; one standalone parametrized expression
`const name = $ => body;` is emitted for it by `inlineRuleFuncs`; and every
reference to the name (an `element` node over a `rulename` or
`core_rulename`) is rewritten into the inline invocation `name($)`. -/
theorem c6_inline_rule_invariant (fuel : Nat) (ctx : Ctx) (name : String)
    (hmem : name ∈ ctx.inlineRules) :
    (∀ node rn rest, node.type = "rule" →
      descendantsOfType "rulename" node = rn :: rest →
      convert fuel ctx rn = some (JsStr.s name) →
      convert (fuel + 1) ctx node = some (JsStr.s "")) ∧
    (∀ node c cs2, node.type = "element" →
      node.namedChildren = c :: cs2 →
      (c.type = "rulename" ∨ c.type = "core_rulename") →
      normalizeRulename (jsTrimStr node.text) = name →
      convert (fuel + 1) ctx node = some (JsStr.s (name ++ "($)"))) ∧
    (∀ rl ruleN rn els rrest erest bodyV,
      descendantsOfType "rule" rl = [ruleN] →
      descendantsOfType "rulename" ruleN = rn :: rrest →
      normalizeRulename rn.text = name →
      descendantsOfType "elements" ruleN = els :: erest →
      convert fuel ctx els = some bodyV →
      inlineRuleFuncs (fuel + 1) ctx (sourceFileNode rl) =
        some ("const " ++ name ++ " = $ => " ++ templ bodyV ++ ";")) := by
  refine ⟨?_, ?_, ?_⟩
  · intro node rn rest htype hdesc hrn
    exact convert_rule_inlined fuel ctx node rn rest name htype hdesc hrn hmem
  · intro node c cs2 htype hnc hc hname
    exact convert_element_inlined fuel ctx node c cs2 name htype hnc hc hname hmem
  · intro rl ruleN rn els rrest erest bodyV hrules hrn hname hels hbody
    exact inlineRuleFuncs_single fuel ctx rl ruleN rn els rrest erest name bodyV
      hrules hrn hname hels hbody hmem

/-- Witness for C6 on the one-rule grammar `foo = "a"` with `foo` inlined. -/
theorem c6_inline_rule_invariant_witness :
    convert 3 ctxInlineHidden (mkRuleNode "foo" " = " (quotedStringNode "\"a\""))
      = some (JsStr.s "") ∧
    convert 3 ctxInlineHidden (elementNode "foo" (rulenameNode "foo"))
      = some (JsStr.s ("foo" ++ "($)")) ∧
    inlineRuleFuncs 3 ctxInlineHidden
        (sourceFileNode (rulelistNode [mkRuleNode "foo" " = " (quotedStringNode "\"a\"")]))
      = some ("const " ++ "foo" ++ " = $ => " ++ templ (JsStr.s "\"a\"") ++ ";") := by
  have h := c6_inline_rule_invariant 2 ctxInlineHidden "foo" (by decide)
  exact ⟨h.1 _ _ _ rfl rfl (by decide),
    h.2.1 _ _ _ rfl rfl (Or.inl rfl) (by decide),
    h.2.2 _ _ _ _ _ _ _ rfl rfl (by decide) rfl (by decide)⟩

/-- **C10.** For a rule name in both the inline set and the hidden set,
inline elision wins: the rule's named definition is elided (no hidden
marker is emitted) and every reference becomes the inline invocation
`name($)` with no `_` hidden-rule marker. -/
theorem c10_inline_over_hidden (fuel : Nat) (ctx : Ctx) (name : String)
    (hin : name ∈ ctx.inlineRules) (hhid : name ∈ ctx.hiddenRules) :
    (∀ node rn rest, node.type = "rule" →
      descendantsOfType "rulename" node = rn :: rest →
      convert fuel ctx rn = some (JsStr.s name) →
      convert (fuel + 1) ctx node = some (JsStr.s "")) ∧
    (∀ node c cs2, node.type = "element" →
      node.namedChildren = c :: cs2 →
      (c.type = "rulename" ∨ c.type = "core_rulename") →
      normalizeRulename (jsTrimStr node.text) = name →
      convert (fuel + 1) ctx node = some (JsStr.s (name ++ "($)"))) := by
  refine ⟨?_, ?_⟩
  · intro node rn rest htype hdesc hrn
    exact convert_rule_inlined fuel ctx node rn rest name htype hdesc hrn hin
  · intro node c cs2 htype hnc hc hname
    exact convert_element_inlined fuel ctx node c cs2 name htype hnc hc hname hin

/-- Witness for C10: `foo` is in both sets of `ctxInlineHidden`; its rule is
elided and its reference becomes `foo($)` (not `$._foo`). -/
theorem c10_inline_over_hidden_witness :
    convert 3 ctxInlineHidden (mkRuleNode "foo" " = " (quotedStringNode "\"a\""))
      = some (JsStr.s "") ∧
    convert 3 ctxInlineHidden (elementNode "foo" (rulenameNode "foo"))
      = some (JsStr.s ("foo" ++ "($)")) := by
  have h := c10_inline_over_hidden 2 ctxInlineHidden "foo" (by decide) (by decide)
  exact ⟨h.1 _ _ _ rfl rfl (by decide), h.2 _ _ _ rfl rfl (Or.inl rfl) (by decide)⟩
